import Mathlib

/-!
# Product inventory backend: import, update and audit log

A shallow embedding of `backend/server.js` and `backend/db.js`.

* Text is a list of characters (`Str`).
* The SQLite file is a `Store`: the rows of `products` and `inventory_logs` in
  rowid order, with the AUTOINCREMENT counters of both tables.
* A JavaScript number that holds a stock is an `Option Int`: `none` is `NaN`, and an
  integer is the value of a double, rounded by `toDouble` wherever the code holds it in
  a number. A numeral of more than 308 digits, which JavaScript reads as `Infinity`, and
  a stock of 10^21 or more, which JavaScript writes in exponent notation, are outside
  the model.
* `String.prototype.toLowerCase()` belongs to the JavaScript runtime and not to the
  repository: the definitions that call it take it as the parameter `toLowerCase`.
* Every handler takes the store and the request and returns the response
  together with the store it leaves behind. The clock reading `now` that
  CURRENT_TIMESTAMP yields is taken once per request.
-/

namespace Inventory

/-! ## Text -/

/-- Text values: the characters of a JavaScript string or of an SQLite TEXT value. -/
abbrev Str := List Char

/-- White space and line terminators removed by `String.prototype.trim()` and skipped
by `parseInt`: TAB, LF, VT, FF, CR, SP, NBSP, the Unicode space separators, LS, PS and
the byte order mark. -/
def isJsWhitespace (c : Char) : Bool :=
  let n := c.toNat
  (9 ≤ n && n ≤ 13) || n == 32 || n == 160 || n == 5760 || (8192 ≤ n && n ≤ 8202) ||
    n == 8232 || n == 8233 || n == 8239 || n == 8287 || n == 12288 || n == 65279

/-- The method `s.trim()`. -/
def trim (s : Str) : Str :=
  ((s.dropWhile isJsWhitespace).reverse.dropWhile isJsWhitespace).reverse

/-- SQLite's built-in `lower(X)`: only the letters `A`..`Z` are folded; every other
character is returned as it is. -/
def sqlLowerChar (c : Char) : Char :=
  if 65 ≤ c.toNat ∧ c.toNat ≤ 90 then Char.ofNat (c.toNat + 32) else c

/-- SQL `lower(name)` on a TEXT value. -/
def sqlLower (s : Str) : Str := s.map sqlLowerChar

/-- Lower-case form of one character below U+0100: the letters `A`..`Z` and the capitals
U+00C0..U+00DE other than the multiplication sign U+00D7 go to the character 32 places
further, every other character stays. -/
def latin1LowerChar (c : Char) : Char :=
  let n := c.toNat
  if 65 ≤ n ∧ n ≤ 90 then Char.ofNat (n + 32)
  else if 192 ≤ n ∧ n ≤ 222 ∧ n ≠ 215 then Char.ofNat (n + 32)
  else c

/-- What `toLowerCase()` returns on text whose characters are all below U+0100 (Basic
Latin and Latin-1 Supplement), where the method works character by character. It is the
value given to the parameter `toLowerCase` where a handler is evaluated on such text; on
other text it is not the method. -/
def latin1Lower (s : Str) : Str := s.map latin1LowerChar

/-- Order of two TEXT values under the collation BINARY: by code point, a proper initial
part first. -/
def textLt : Str → Str → Bool
  | _, [] => false
  | [], _ :: _ => true
  | a :: as, b :: bs => decide (a.toNat < b.toNat) || (a.toNat == b.toNat && textLt as bs)

/-- The JavaScript expression `a || b` on an optional string: `undefined` and the empty
string are falsy. -/
def orElse (a : Option Str) (b : Str) : Str :=
  match a with
  | some (c :: cs) => c :: cs
  | _ => b

/-! ## Numbers -/

/-- Value of a digit in the given radix (10 or 16), if the character is one. -/
def digitValue (radix : Nat) (c : Char) : Option Nat :=
  let n := c.toNat
  if 48 ≤ n ∧ n ≤ 57 then some (n - 48)
  else if radix = 16 ∧ 97 ≤ n ∧ n ≤ 102 then some (n - 87)
  else if radix = 16 ∧ 65 ≤ n ∧ n ≤ 70 then some (n - 55)
  else none

/-- The longest run of digits at the front of the text, as digit values. -/
def leadingDigits (radix : Nat) : Str → List Nat
  | [] => []
  | c :: cs =>
    match digitValue radix c with
    | some d => d :: leadingDigits radix cs
    | none => []

/-- The number written by a list of digit values, most significant first. -/
def digitsValue (radix : Nat) (ds : List Nat) : Nat :=
  ds.foldl (fun acc d => acc * radix + d) 0

/-- Sign of a numeric text: `(negative, rest)`. -/
def splitSign : Str → Bool × Str
  | '-' :: r => (true, r)
  | '+' :: r => (false, r)
  | s => (false, s)

/-- Radix of a numeric text: a leading `0x` or `0X` selects 16 and is removed. -/
def splitRadix : Str → Nat × Str
  | '0' :: 'x' :: r => (16, r)
  | '0' :: 'X' :: r => (16, r)
  | s => (10, s)

/-- Number of binary digits of `m`; the first argument bounds the recursion and is `m`
itself where the function is used. -/
def bitLength : Nat → Nat → Nat
  | 0, _ => 0
  | fuel + 1, m => if m = 0 then 0 else bitLength fuel (m / 2) + 1

/-- The double nearest to the natural number `m`: up to 2^53 the number itself, beyond it
`m` rounded to 53 significant binary digits, a tie going to the even neighbour. -/
def roundNat (m : Nat) : Nat :=
  if m ≤ 9007199254740992 then m
  else
    let e := bitLength m m - 53
    let q := m / 2 ^ e
    let r := m % 2 ^ e
    let half := 2 ^ e / 2
    if r < half then q * 2 ^ e
    else if half < r then (q + 1) * 2 ^ e
    else if q % 2 = 0 then q * 2 ^ e
    else (q + 1) * 2 ^ e

/-- The integer as a JavaScript number: the nearest double. -/
def toDouble : Int → Int
  | Int.ofNat m => Int.ofNat (roundNat m)
  | Int.negSucc m => -Int.ofNat (roundNat (m + 1))

/-- The global function `parseInt(s)` with no radix argument: leading white space is
skipped, then an optional sign, then an optional `0x`, then the longest run of digits;
with no digit at all the result is `NaN` (`none`), else the double nearest to the number
written. -/
def parseInt (s : Str) : Option Int :=
  let signed := splitSign (s.dropWhile isJsWhitespace)
  let body := splitRadix signed.2
  match leadingDigits body.1 body.2 with
  | [] => none
  | d :: ds =>
    let v : Int := (digitsValue body.1 (d :: ds) : Nat)
    some (toDouble (if signed.1 then -v else v))

/-- Decimal digits of `n`, most significant first, put in front of `acc`. -/
def decimalDigitsAux : Nat → Nat → Str → Str
  | 0, _, acc => acc
  | fuel + 1, n, acc =>
    let d := Char.ofNat (48 + n % 10)
    if n / 10 = 0 then d :: acc else decimalDigitsAux fuel (n / 10) (d :: acc)

/-- Decimal text of a natural number. -/
def renderNat (n : Nat) : Str := decimalDigitsAux (n + 1) n []

/-- Decimal text of an integer, as a JavaScript number below 10^21 is written into a CSV
cell. -/
def renderInt : Int → Str
  | Int.ofNat n => renderNat n
  | Int.negSucc n => '-' :: renderNat (n + 1)

/-- The comparison `stock > 0` on a JavaScript number; it is false for `NaN`. -/
def isPositive : Option Int → Bool
  | some n => decide (0 < n)
  | none => false

/-! ## Rows of an uploaded CSV file -/

/-- One record produced by the CSV reader (`columns: true`): every column of the header
is a string, a column that the header lacks is `undefined` (`none`). A quoted cell keeps
its white space. -/
structure RawRow where
  name : Option Str := none
  unit : Option Str := none
  category : Option Str := none
  brand : Option Str := none
  stock : Option Str := none
  status : Option Str := none
  image : Option Str := none
  deriving DecidableEq, Repr

/-- The values bound to the INSERT of one imported row. -/
structure Candidate where
  name : Str
  unit : Str
  category : Str
  brand : Str
  stock : Option Int
  status : Str
  image : Option Str
  deriving DecidableEq, Repr

/-- The expression `parseInt(record.stock || 0)`. -/
def parseStock (field : Option Str) : Option Int :=
  match field with
  | some (c :: cs) => parseInt (c :: cs)
  | _ => some 0

/-- The expression `x || null` for a string that is stored in a nullable column. -/
def orNull : Str → Option Str
  | [] => none
  | c :: cs => some (c :: cs)

/-- Normalisation of one record (lines 179-189 and the bound values of line 200):
`none` when the trimmed name is empty. -/
def normalize (record : RawRow) : Option Candidate :=
  let name := trim (orElse record.name [])
  if name = [] then none
  else
    let stock := parseStock record.stock
    some {
      name := name
      unit := trim (orElse record.unit "pcs".toList)
      category := trim (orElse record.category "Uncategorized".toList)
      brand := trim (orElse record.brand [])
      stock := stock
      status := trim (orElse record.status
        (if isPositive stock then "In Stock".toList else "Out of Stock".toList))
      image := orNull (trim (orElse record.image [])) }

/-! ## The database (`db.js`) -/

/-- A row of the table `products`. -/
structure Product where
  id : Nat
  name : Str
  unit : Str
  category : Str
  brand : Str
  stock : Int
  status : Str
  image : Option Str
  created_at : Nat
  updated_at : Nat
  deriving DecidableEq, Repr

/-- A row of the table `inventory_logs`. -/
structure InventoryLog where
  id : Nat
  productId : Nat
  oldStock : Int
  newStock : Int
  changedBy : Str
  timestamp : Nat
  deriving DecidableEq, Repr

/-- The database file: both tables in rowid order and the AUTOINCREMENT counter that
`sqlite_sequence` keeps for each of them. -/
structure Store where
  products : List Product := []
  productSeq : Nat := 0
  logs : List InventoryLog := []
  logSeq : Nat := 0
  deriving DecidableEq, Repr

/-- The database right after `initSql` has run on a new file. -/
def emptyStore : Store := {}

/-- A statement rejected by SQLite with SQLITE_CONSTRAINT. -/
inductive StorageError where
  | notNull (column : String)
  | unique (column : String)
  deriving DecidableEq, Repr

deriving instance DecidableEq for Except

/-- Largest id of a list of products, 0 for none. -/
def maxProductId (ps : List Product) : Nat := ps.foldr (fun p m => max p.id m) 0

/-- Largest id of a list of log rows, 0 for none. -/
def maxLogId (ls : List InventoryLog) : Nat := ls.foldr (fun l m => max l.id m) 0

/-- The rowid AUTOINCREMENT gives to the next product: one more than the largest rowid
the table has ever held. -/
def nextProductId (s : Store) : Nat := max s.productSeq (maxProductId s.products) + 1

/-- The rowid AUTOINCREMENT gives to the next log row. -/
def nextLogId (s : Store) : Nat := max s.logSeq (maxLogId s.logs) + 1

/-- The statement `INSERT INTO products (name, unit, category, brand, stock, status,
image) VALUES (?,?,?,?,?,?,?)` at clock reading `now`. A `NaN` is bound as NULL, which
`stock INTEGER NOT NULL` rejects; `name TEXT NOT NULL UNIQUE` rejects a name that a row
already has. On success the new rowid (`lastID`) is returned. -/
def insertProduct (now : Nat) (s : Store) (c : Candidate) : Except StorageError (Nat × Store) :=
  match c.stock with
  | none => .error (.notNull "products.stock")
  | some n =>
    if s.products.any (fun p => p.name == c.name) then .error (.unique "products.name")
    else
      let id := nextProductId s
      .ok (id, { s with
        products := s.products ++ [{
          id := id, name := c.name, unit := c.unit, category := c.category,
          brand := c.brand, stock := n, status := c.status, image := c.image,
          created_at := now, updated_at := now }]
        productSeq := id })

/-- The rows of `products` in the order of the index that `UNIQUE` keeps on `name`.
SQLite answers a query that needs only `name` and `id` from this index, so of several
rows that satisfy such a query the one that comes first by name is returned first. -/
def nameIndex (s : Store) : List Product :=
  s.products.insertionSort (fun a b => textLt b.name a.name = false)

/-- The query `SELECT id FROM products WHERE lower(name)=?` with the parameter
`name.toLowerCase()`: the id of the first row whose name, folded by SQLite, equals the
candidate name folded by JavaScript. -/
def findByLowerName (toLowerCase : Str → Str) (s : Store) (name : Str) : Option Nat :=
  ((nameIndex s).find? (fun p => sqlLower p.name == toLowerCase name)).map (·.id)

/-- The query `SELECT id FROM products WHERE lower(name)=? AND id<>?` of the update
handler. -/
def findOtherByLowerName (toLowerCase : Str → Str) (s : Store) (name : Str) (id : Nat) :
    Option Nat :=
  ((nameIndex s).find? (fun p => sqlLower p.name == toLowerCase name && p.id != id)).map (·.id)

/-- A row as the driver hands it to JavaScript: the stock is a number, that is a
double. -/
def readRow (p : Product) : Product := { p with stock := toDouble p.stock }

/-- The query `SELECT * FROM products WHERE id = ?`. -/
def getProduct (s : Store) (id : Nat) : Option Product :=
  (s.products.find? (fun p => p.id == id)).map readRow

/-! ## CSV import (`POST /api/products/import`) -/

/-- An element of the list `added`. -/
structure AddedEntry where
  id : Nat
  name : Str
  deriving DecidableEq, Repr

/-- An element of the list `skipped`. -/
structure SkippedEntry where
  reason : String
  record : RawRow
  deriving DecidableEq, Repr

/-- An element of the list `duplicates`. -/
structure DuplicateEntry where
  name : Str
  existingId : Nat
  deriving DecidableEq, Repr

/-- The three lists the import loop fills. -/
structure ImportLists where
  added : List AddedEntry := []
  skipped : List SkippedEntry := []
  duplicates : List DuplicateEntry := []
  deriving DecidableEq, Repr

/-- One turn of the loop `for await (const record of parser)` (lines 177-203). An
exception thrown by the INSERT leaves the turn; the store is then as it was. -/
def importRow (toLowerCase : Str → Str) (now : Nat) (s : Store) (acc : ImportLists)
    (record : RawRow) : Except StorageError (ImportLists × Store) :=
  match normalize record with
  | none =>
    .ok ({ acc with skipped := acc.skipped ++ [{ reason := "missing name", record := record }] }, s)
  | some c =>
    match findByLowerName toLowerCase s c.name with
    | some existingId =>
      .ok ({ acc with duplicates := acc.duplicates ++ [{ name := c.name, existingId := existingId }] }, s)
    | none =>
      match insertProduct now s c with
      | .error e => .error e
      | .ok (lastID, s1) =>
        .ok ({ acc with added := acc.added ++ [{ id := lastID, name := c.name }] }, s1)

/-- The whole loop: the rows in order; the first exception ends it, and what earlier
turns wrote stays in the store (no transaction is open). -/
def importLoop (toLowerCase : Str → Str) (now : Nat) :
    Store → ImportLists → List RawRow → Except StorageError ImportLists × Store
  | s, acc, [] => (.ok acc, s)
  | s, acc, record :: rest =>
    match importRow toLowerCase now s acc record with
    | .error e => (.error e, s)
    | .ok (acc1, s1) => importLoop toLowerCase now s1 acc1 rest

/-- The JSON body of a successful import. -/
structure ImportReport where
  added : Nat
  skipped : Nat
  duplicates : List DuplicateEntry
  detailsAdded : List AddedEntry
  detailsSkipped : List SkippedEntry
  deriving DecidableEq, Repr

/-- Response of the import handler. -/
inductive ImportResponse where
  | ok (report : ImportReport)
  | noFile
  | failed (e : StorageError)
  deriving DecidableEq, Repr

/-- The line `res.json(...)` (line 208). -/
def reportOf (acc : ImportLists) : ImportReport :=
  { added := acc.added.length, skipped := acc.skipped.length, duplicates := acc.duplicates,
    detailsAdded := acc.added, detailsSkipped := acc.skipped }

/-- The handler of `POST /api/products/import`: `file` is the uploaded file as the rows
its reader yields, `none` when the request carries no file. The `catch` of line 209
answers status 500. -/
def importHandler (toLowerCase : Str → Str) (now : Nat) (s : Store)
    (file : Option (List RawRow)) : ImportResponse × Store :=
  match file with
  | none => (.noFile, s)
  | some rows =>
    match importLoop toLowerCase now s {} rows with
    | (.ok acc, s1) => (.ok (reportOf acc), s1)
    | (.error e, s1) => (.failed e, s1)

/-! ## Update (`PUT /api/products/:id`) -/

/-- The JSON body of an update request; every field is the text the validators see,
`none` when the field is missing. -/
structure UpdateBody where
  name : Option Str := none
  unit : Option Str := none
  category : Option Str := none
  brand : Option Str := none
  stock : Option Str := none
  status : Option Str := none
  image : Option Str := none
  changedBy : Option Str := none
  deriving DecidableEq, Repr

/-- The validator `notEmpty()`: the field is present and has at least one character. -/
def notEmpty : Option Str → Bool
  | some (_ :: _) => true
  | _ => false

/-- A decimal digit `0`..`9`. -/
def isDecimalDigit (c : Char) : Bool := 48 ≤ c.toNat && c.toNat ≤ 57

/-- The pattern `^[-+]?[0-9]+$` of the validator `isInt`. -/
def isIntText (s : Str) : Bool :=
  let body := (splitSign s).2
  !body.isEmpty && body.all isDecimalDigit

/-- The integer that a text matching the integer pattern writes. -/
def intOfText (s : Str) : Int :=
  let signed := splitSign s
  let v : Int := (digitsValue 10 (leadingDigits 10 signed.2) : Nat)
  if signed.1 then -v else v

/-- The conversion `Number(stock)` on a text that matches the integer pattern: the
double nearest to the integer written. -/
def toNumber (s : Str) : Int := toDouble (intOfText s)

/-- The value an INTEGER column takes from a bound text that writes an integer: the
integer itself when it fits 64 bits, else the nearest REAL. -/
def integerOfText (s : Str) : Int :=
  if -9223372036854775808 ≤ intOfText s ∧ intOfText s ≤ 9223372036854775807 then intOfText s
  else toDouble (intOfText s)

/-- The validator `isInt` with option `min: 0`. -/
def isIntMin0 : Option Str → Bool
  | some s => isIntText s && decide (0 ≤ toNumber s)
  | none => false

/-- The validation chain of lines 98-103. -/
def validBody (b : UpdateBody) : Bool :=
  notEmpty b.name && notEmpty b.unit && notEmpty b.category && notEmpty b.brand &&
    isIntMin0 b.stock && notEmpty b.status

/-- The statement `UPDATE products SET name=?, unit=?, category=?, brand=?, stock=?,
status=?, image=?, updated_at=CURRENT_TIMESTAMP WHERE id=?`. It is rejected when it would
give the row a name that another row has (`UNIQUE`). -/
def updateProduct (now : Nat) (s : Store) (id : Nat) (name unit category brand : Str)
    (stock : Int) (status : Str) (image : Option Str) : Except StorageError Store :=
  if s.products.any (fun p => p.id == id) &&
      s.products.any (fun p => p.id != id && p.name == name) then
    .error (.unique "products.name")
  else
    .ok { s with products := s.products.map (fun p =>
      if p.id = id then
        { p with name := name, unit := unit, category := category, brand := brand,
                 stock := stock, status := status, image := image, updated_at := now }
      else p) }

/-- The statement `INSERT INTO inventory_logs (productId, oldStock, newStock, changedBy)
VALUES (?,?,?,?)`. -/
def insertLog (now : Nat) (s : Store) (productId : Nat) (oldStock newStock : Int)
    (changedBy : Str) : Store :=
  let id := nextLogId s
  { s with
    logs := s.logs ++ [{ id := id, productId := productId, oldStock := oldStock,
                         newStock := newStock, changedBy := changedBy, timestamp := now }]
    logSeq := id }

/-- Response of the update handler. -/
inductive PutResponse where
  | ok (updated : Option Product)
  | validationErrors
  | nameExists
  | notFound
  | failed (e : StorageError)
  deriving DecidableEq, Repr

/-- Whether the response carries an error status (400, 404 or 500). -/
def PutResponse.isError : PutResponse → Bool
  | .ok _ => false
  | _ => true

/-- The handler of `PUT /api/products/:id` (lines 105-146); `id` is the rowid that the
path segment denotes. The UPDATE binds the stock as the body gives it, the comparison of
line 132 and the INSERT into the log take `Number(stock)`. -/
def putHandler (toLowerCase : Str → Str) (now : Nat) (s : Store) (id : Nat) (b : UpdateBody) :
    PutResponse × Store :=
  if !validBody b then (.validationErrors, s)
  else
    let name := b.name.getD []
    match findOtherByLowerName toLowerCase s name id with
    | some _ => (.nameExists, s)
    | none =>
      match getProduct s id with
      | none => (.notFound, s)
      | some old =>
        let stock := toNumber (b.stock.getD [])
        match updateProduct now s id name (b.unit.getD []) (b.category.getD [])
            (b.brand.getD []) (integerOfText (b.stock.getD [])) (b.status.getD [])
            (orNull (b.image.getD [])) with
        | .error e => (.failed e, s)
        | .ok s1 =>
          let s2 :=
            if old.stock ≠ stock then
              insertLog now s1 id old.stock stock (orElse b.changedBy "admin".toList)
            else s1
          (.ok (getProduct s2 id), s2)

/-! ## Delete, seed and export -/

/-- The handler of `DELETE /api/products/:id`: `DELETE FROM products WHERE id=?`. -/
def deleteHandler (s : Store) (id : Nat) : Store :=
  { s with products := s.products.filter (fun p => p.id != id) }

/-- The handler of `GET /api/products/:id/history`: `SELECT id, productId, oldStock,
newStock, changedBy, timestamp FROM inventory_logs WHERE productId=? ORDER BY timestamp
DESC`. Rows with the same timestamp keep their rowid order. -/
def historyHandler (s : Store) (id : Nat) : List InventoryLog :=
  (s.logs.filter (fun l => l.productId == id)).insertionSort
    (fun a b => b.timestamp ≤ a.timestamp)

/-- The array `sample` of the seed endpoint. -/
def seedSample : List Candidate :=
  [ { name := "Apple iPhone 14".toList, unit := "pcs".toList, category := "Electronics".toList,
      brand := "Apple".toList, stock := some 10, status := "In Stock".toList,
      image := some "https://example.com/iphone.jpg".toList },
    { name := "Banana".toList, unit := "kg".toList, category := "Grocery".toList,
      brand := "FreshFarm".toList, stock := some 0, status := "Out of Stock".toList,
      image := some [] },
    { name := "Shampoo".toList, unit := "bottle".toList, category := "Personal Care".toList,
      brand := "CleanCo".toList, stock := some 25, status := "In Stock".toList,
      image := some [] } ]

/-- The handler of `POST /api/seed`: every sample row is inserted, a rejected INSERT is
ignored. -/
def seedHandler (now : Nat) (s : Store) : Store :=
  seedSample.foldl (fun st c =>
    match insertProduct now st c with
    | .ok (_, st1) => st1
    | .error _ => st) s

/-- Modelled from the spec: the CSV encoding of the export sink (the library json2csv)
followed by the CSV reader of the upload source (the library csv-parse), neither of which
is under `src/`. The spec gives both the same seven named columns in a fixed order, so a
product comes back as one record with its seven values as text: every text column as it
is stored, NULL as an empty cell, and the stock, which the export reads as a number, in
decimal. -/
def exportRow (p : Product) : RawRow :=
  { name := some p.name, unit := some p.unit, category := some p.category,
    brand := some p.brand, stock := some (renderInt (toDouble p.stock)),
    status := some p.status, image := some (p.image.getD []) }

/-- The rows of `GET /api/products/export`: `SELECT name, unit, category, brand, stock,
status, image FROM products`. -/
def exportRows (s : Store) : List RawRow := s.products.map exportRow

/-- The seven exported columns of a product. -/
def sevenFields (p : Product) : Str × Str × Str × Str × Int × Str × Option Str :=
  (p.name, p.unit, p.category, p.brand, p.stock, p.status, p.image)

/-- The states of the database that the handlers can produce from a new file. -/
inductive Reachable (toLowerCase : Str → Str) : Store → Prop where
  | init : Reachable toLowerCase emptyStore
  | importCsv (now : Nat) (s : Store) (file : Option (List RawRow)) :
      Reachable toLowerCase s → Reachable toLowerCase (importHandler toLowerCase now s file).2
  | put (now : Nat) (s : Store) (id : Nat) (b : UpdateBody) :
      Reachable toLowerCase s → Reachable toLowerCase (putHandler toLowerCase now s id b).2
  | delete (s : Store) (id : Nat) :
      Reachable toLowerCase s → Reachable toLowerCase (deleteHandler s id)
  | seed (now : Nat) (s : Store) :
      Reachable toLowerCase s → Reachable toLowerCase (seedHandler now s)

/-! ## Export followed by import -/

/-- The product is stored the way the import writes a row: name, unit, category and
status are non-empty, no text column has white space at either end, and the image is
NULL or a non-empty text. -/
def inNormalForm (p : Product) : Bool :=
  !p.name.isEmpty && trim p.name == p.name && !p.unit.isEmpty && trim p.unit == p.unit &&
    !p.category.isEmpty && trim p.category == p.category && trim p.brand == p.brand &&
    !p.status.isEmpty && trim p.status == p.status &&
    (match p.image with
     | none => true
     | some i => !i.isEmpty && trim i == i)

/-- No product has the name of a product earlier in the table, and the duplicate lookup
of the import matches none with an earlier one. -/
def namesDistinct (toLowerCase : Str → Str) : List Product → Bool
  | [] => true
  | p :: ps =>
    ps.all (fun q => sqlLower p.name != toLowerCase q.name && p.name != q.name) &&
      namesDistinct toLowerCase ps

/-- The stock lies between -2^53 and 2^53, where every integer is a double. -/
def inSafeRange (n : Int) : Bool := decide (n.natAbs ≤ 9007199254740992)

/-- The exported rows of a store, imported into the empty store. -/
def roundTrip (toLowerCase : Str → Str) (now : Nat) (s : Store) : ImportResponse × Store :=
  importHandler toLowerCase now emptyStore (some (exportRows s))

/-! ## Example data -/

/-- A CSV record with a name and a stock cell only. -/
def rowOf (name stock : String) : RawRow :=
  { name := some name.toList, stock := some stock.toList }

/-- A store that holds one product, Milk with stock 10, under id 1. -/
def milkStore : Store :=
  { products := [{ id := 1, name := "Milk".toList, unit := "l".toList, category := "Dairy".toList,
                   brand := "Farm".toList, stock := 10, status := "In Stock".toList, image := none,
                   created_at := 0, updated_at := 0 }],
    productSeq := 1 }

/-- A complete update body for Milk with the given stock text. -/
def milkBody (stock : String) : UpdateBody :=
  { name := some "Milk".toList, unit := some "l".toList, category := some "Dairy".toList,
    brand := some "Farm".toList, stock := some stock.toList, status := some "In Stock".toList }

/-- The store that holds Milk after its stock was updated from 10 to 7 at time 5 and
from 7 to 9 at time 6: the log has two rows for product 1. -/
def auditedStore : Store :=
  (putHandler latin1Lower 6 (putHandler latin1Lower 5 milkStore 1 (milkBody "7")).2 1
    (milkBody "9")).2

/-- A complete update body with the given name and stock text. -/
def renameBody (name stock : String) : UpdateBody :=
  { name := some name.toList, unit := some "kg".toList, category := some "Grocery".toList,
    brand := some "FreshFarm".toList, stock := some stock.toList,
    status := some "Out of Stock".toList }

/-- The store after the seed endpoint, an update that renames product 2 (Banana) to
banana, and the seed endpoint again. -/
def reseededStore : Store :=
  seedHandler 2 (putHandler latin1Lower 1 (seedHandler 0 emptyStore) 2 (renameBody "banana" "0")).2

/-- The store after the seed endpoint and an update that puts a blank in front of the
name of product 2. -/
def paddedStore : Store :=
  (putHandler latin1Lower 1 (seedHandler 0 emptyStore) 2 (renameBody " Banana" "0")).2

/-- The store after the seed endpoint and an update that sets the stock of product 2 to
2^53 + 1. -/
def bigStockStore : Store :=
  (putHandler latin1Lower 1 (seedHandler 0 emptyStore) 2
    (renameBody "Banana" "9007199254740993")).2

/-- The store after the import of Milk with stock 10 and Soap with stock -3 into the
empty store. -/
def milkSoapStore : Store :=
  (importHandler latin1Lower 0 emptyStore (some [rowOf "Milk" "10", rowOf "Soap" "-3"])).2

/-- The store after the import of one row whose unit, category and status cells hold one
blank. -/
def blankCellStore : Store :=
  (importHandler latin1Lower 0 emptyStore (some
    [{ name := some "Milk".toList, unit := some " ".toList, category := some " ".toList,
       stock := some "4".toList, status := some " ".toList }])).2

/-- The store after the import of the rows É/1 and Milk/10 into the empty store. -/
def accentStore : Store :=
  (importHandler latin1Lower 0 emptyStore (some [rowOf "É" "1", rowOf "Milk" "10"])).2

/-- The store after the import of the rows ÉCLAIR/1 and Milk/10 into the empty store. -/
def eclairStore : Store :=
  (importHandler latin1Lower 0 emptyStore (some [rowOf "ÉCLAIR" "1", rowOf "Milk" "10"])).2

/-- A store that holds one product, Milk with stock 2^53, under id 1. -/
def bigMilkStore : Store :=
  { products := [{ id := 1, name := "Milk".toList, unit := "l".toList, category := "Dairy".toList,
                   brand := "Farm".toList, stock := 9007199254740992, status := "In Stock".toList,
                   image := none, created_at := 0, updated_at := 0 }],
    productSeq := 1 }

end Inventory

namespace Inventory

/-! ## Text lemmas -/

theorem dropWhile_all_true {p : Char → Bool} (s : Str) (h : s.all p = true) :
    s.dropWhile p = [] := by
  induction s with
  | nil => rfl
  | cons c cs ih =>
    simp only [List.all_cons, Bool.and_eq_true] at h
    simp [List.dropWhile, h.1, ih h.2]

theorem trim_of_all_whitespace (s : Str) (h : s.all isJsWhitespace = true) : trim s = [] := by
  simp [trim, dropWhile_all_true s h]

theorem orElse_none (d : Str) : orElse none d = d := rfl

theorem orElse_nil (d : Str) : orElse (some []) d = d := rfl

theorem orElse_of_ne_nil (x d : Str) (h : x ≠ []) : orElse (some x) d = x := by
  cases x with
  | nil => exact absurd rfl h
  | cons c cs => rfl

/-- A record whose name is missing, empty or made of white space only has no
normal form. -/
theorem normalize_blank_name (record : RawRow)
    (h : ∀ n, record.name = some n → n.all isJsWhitespace = true) :
    normalize record = none := by
  have hname : trim (orElse record.name []) = [] := by
    cases hn : record.name with
    | none => rfl
    | some n =>
      cases n with
      | nil => rfl
      | cons c cs => exact trim_of_all_whitespace _ (h _ hn)
  simp [normalize, hname]

/-! ## The import loop -/

theorem importLoop_append (toLowerCase : Str → Str) (now : Nat) (pre post : List RawRow)
    (s : Store) (acc : ImportLists) :
    importLoop toLowerCase now s acc (pre ++ post) =
      match importLoop toLowerCase now s acc pre with
      | (.ok acc1, s1) => importLoop toLowerCase now s1 acc1 post
      | (.error e, s1) => (.error e, s1) := by
  induction pre generalizing s acc with
  | nil => simp [importLoop]
  | cons r rs ih =>
    simp only [List.cons_append, importLoop]
    cases hr : importRow toLowerCase now s acc r with
    | error e => simp
    | ok v => simp [ih]

/-- What one turn of the loop does to the lists and to the store. -/
theorem importRow_ok_cases (toLowerCase : Str → Str) (now : Nat) (s s1 : Store)
    (acc acc1 : ImportLists) (record : RawRow)
    (h : importRow toLowerCase now s acc record = .ok (acc1, s1)) :
    (normalize record = none ∧ s1 = s ∧
      acc1 = { acc with skipped := acc.skipped ++ [{ reason := "missing name", record := record }] }) ∨
    (∃ c existingId, normalize record = some c ∧
      findByLowerName toLowerCase s c.name = some existingId ∧ s1 = s ∧
      acc1 = { acc with duplicates := acc.duplicates ++ [{ name := c.name, existingId := existingId }] }) ∨
    (∃ c lastID, normalize record = some c ∧ findByLowerName toLowerCase s c.name = none ∧
      insertProduct now s c = .ok (lastID, s1) ∧
      acc1 = { acc with added := acc.added ++ [{ id := lastID, name := c.name }] }) := by
  unfold importRow at h
  cases hn : normalize record with
  | none =>
    simp only [hn, Except.ok.injEq, Prod.mk.injEq] at h
    exact Or.inl ⟨rfl, h.2.symm, h.1.symm⟩
  | some c =>
    simp only [hn] at h
    cases hf : findByLowerName toLowerCase s c.name with
    | some existingId =>
      simp only [hf, Except.ok.injEq, Prod.mk.injEq] at h
      exact Or.inr (Or.inl ⟨c, existingId, rfl, hf, h.2.symm, h.1.symm⟩)
    | none =>
      simp only [hf] at h
      cases hi : insertProduct now s c with
      | error e => simp [hi] at h
      | ok v =>
        obtain ⟨lastID, s2⟩ := v
        simp only [hi, Except.ok.injEq, Prod.mk.injEq] at h
        exact Or.inr (Or.inr ⟨c, lastID, rfl, hf, by rw [← h.2]; exact hi, h.1.symm⟩)

/-- A successful INSERT appends exactly one row and leaves the log alone. -/
theorem insertProduct_ok (now : Nat) (s s1 : Store) (c : Candidate) (lastID : Nat)
    (h : insertProduct now s c = .ok (lastID, s1)) :
    ∃ n, c.stock = some n ∧ lastID = nextProductId s ∧ s1.logs = s.logs ∧ s1.logSeq = s.logSeq ∧
      s1.productSeq = lastID ∧
      s1.products = s.products ++ [{
        id := lastID, name := c.name, unit := c.unit, category := c.category, brand := c.brand,
        stock := n, status := c.status, image := c.image, created_at := now, updated_at := now }] := by
  unfold insertProduct at h
  cases hs : c.stock with
  | none => simp [hs] at h
  | some n =>
    simp only [hs] at h
    split at h
    · simp at h
    · simp only [Except.ok.injEq, Prod.mk.injEq] at h
      obtain ⟨h1, h2⟩ := h
      subst h2
      exact ⟨n, rfl, h1.symm, rfl, rfl, h1, by rw [h1]⟩

/-- Counting invariant of the loop. -/
theorem importLoop_counts (toLowerCase : Str → Str) (now : Nat) (rows : List RawRow)
    (s s1 : Store) (acc acc1 : ImportLists)
    (h : importLoop toLowerCase now s acc rows = (.ok acc1, s1)) :
    acc1.added.length + acc1.duplicates.length + acc1.skipped.length =
        acc.added.length + acc.duplicates.length + acc.skipped.length + rows.length ∧
      s1.products.length + acc.added.length = s.products.length + acc1.added.length ∧
      s1.logs = s.logs := by
  induction rows generalizing s acc with
  | nil =>
    simp only [importLoop, Prod.mk.injEq, Except.ok.injEq] at h
    obtain ⟨h1, h2⟩ := h
    subst h1 h2
    simp
  | cons r rs ih =>
    simp only [importLoop] at h
    cases hr : importRow toLowerCase now s acc r with
    | error e => simp [hr] at h
    | ok v =>
      obtain ⟨acc2, s2⟩ := v
      simp only [hr] at h
      obtain ⟨ih1, ih2, ih3⟩ := ih s2 acc2 h
      rcases importRow_ok_cases toLowerCase now s s2 acc acc2 r hr with
        ⟨_, hs, ha⟩ | ⟨c, e, _, _, hs, ha⟩ | ⟨c, lastID, _, _, hins, ha⟩
      · subst hs ha
        simp only [List.length_append, List.length_cons, List.length_nil] at ih1 ih2 ⊢
        refine ⟨by omega, by omega, ih3⟩
      · subst hs ha
        simp only [List.length_append, List.length_cons, List.length_nil] at ih1 ih2 ⊢
        refine ⟨by omega, by omega, ih3⟩
      · obtain ⟨n, _, _, hlogs, _, _, hprod⟩ := insertProduct_ok now s s2 c lastID hins
        subst ha
        rw [hprod] at ih2
        simp only [List.length_append, List.length_cons, List.length_nil] at ih1 ih2 ⊢
        refine ⟨by omega, by omega, by rw [ih3, hlogs]⟩

theorem importHandler_ok (toLowerCase : Str → Str) (now : Nat) (s s1 : Store)
    (rows : List RawRow) (report : ImportReport)
    (h : importHandler toLowerCase now s (some rows) = (.ok report, s1)) :
    ∃ acc, importLoop toLowerCase now s {} rows = (.ok acc, s1) ∧ report = reportOf acc := by
  unfold importHandler at h
  simp only at h
  cases hl : importLoop toLowerCase now s {} rows with
  | mk r s2 =>
    cases r with
    | error e => simp [hl] at h
    | ok acc =>
      simp only [hl, Prod.mk.injEq, ImportResponse.ok.injEq] at h
      exact ⟨acc, by rw [h.2], h.1.symm⟩

/-! ## C9: rows without a name -/

/-- C9. A row whose name is absent, empty or white space only adds exactly one entry
with reason "missing name" to the skipped list and nothing else: the added and duplicates
lists, the products table, the inventory log and both counters are as before, and the
loop goes on with the next row. -/
theorem import_missing_name_skipped (toLowerCase : Str → Str) (now : Nat) (s : Store)
    (acc : ImportLists) (record : RawRow) (rest : List RawRow)
    (h : ∀ n, record.name = some n → n.all isJsWhitespace = true) :
    importRow toLowerCase now s acc record =
        .ok ({ added := acc.added,
               skipped := acc.skipped ++ [{ reason := "missing name", record := record }],
               duplicates := acc.duplicates }, s) ∧
      importLoop toLowerCase now s acc (record :: rest) =
        importLoop toLowerCase now s
          { added := acc.added,
            skipped := acc.skipped ++ [{ reason := "missing name", record := record }],
            duplicates := acc.duplicates } rest := by
  have hrow : importRow toLowerCase now s acc record =
      .ok ({ added := acc.added,
             skipped := acc.skipped ++ [{ reason := "missing name", record := record }],
             duplicates := acc.duplicates }, s) := by
    simp [importRow, normalize_blank_name record h]
  exact ⟨hrow, by simp [importLoop, hrow]⟩

/-- Witness for C9: a record whose name is three blanks, met after one product was
added. -/
theorem import_missing_name_skipped_witness :
    importRow latin1Lower 0 { products := [], productSeq := 4 }
        { added := [{ id := 4, name := ['a'] }] }
        { name := some [' ', '\t', ' '], stock := some ['3'] } =
      .ok ({ added := [{ id := 4, name := ['a'] }],
             skipped := [{ reason := "missing name",
                           record := { name := some [' ', '\t', ' '], stock := some ['3'] } }],
             duplicates := [] }, { products := [], productSeq := 4 }) :=
  (import_missing_name_skipped latin1Lower 0 { products := [], productSeq := 4 }
    { added := [{ id := 4, name := ['a'] }] }
    { name := some [' ', '\t', ' '], stock := some ['3'] } []
    (by intro n hn; cases hn; decide)).1

/-! ## C10: accounting of an import -/

/-- C10. When an import of `N` rows ends without a storage failure, the three lists share
the rows among them: `added + duplicates + skipped = N`, so `added = N - K - S`; the
products table has grown by exactly `added` rows and the inventory log is unchanged. -/
theorem import_accounting (toLowerCase : Str → Str) (now : Nat) (s s1 : Store)
    (rows : List RawRow) (report : ImportReport)
    (h : importHandler toLowerCase now s (some rows) = (.ok report, s1)) :
    report.added + report.duplicates.length + report.skipped = rows.length ∧
      report.added = rows.length - report.duplicates.length - report.skipped ∧
      report.detailsAdded.length = report.added ∧
      report.detailsSkipped.length = report.skipped ∧
      s1.products.length = s.products.length + report.added ∧
      s1.logs = s.logs := by
  obtain ⟨acc, hloop, hrep⟩ := importHandler_ok toLowerCase now s s1 rows report h
  obtain ⟨h1, h2, h3⟩ := importLoop_counts toLowerCase now rows s s1 {} acc hloop
  subst hrep
  simp only [List.length_nil] at h1 h2
  refine ⟨?_, ?_, rfl, rfl, ?_, h3⟩ <;> simp only [reportOf] <;> omega

/-- Witness for C10: the rows Milk/10, milk/5 and a row without a name, imported into an
empty store, give added = 1, one duplicate and skipped = 1. -/
theorem import_accounting_witness :
    (importHandler latin1Lower 0 emptyStore (some
        [{ name := some "Milk".toList, stock := some "10".toList },
         { name := some "milk".toList, stock := some "5".toList },
         { name := some [], stock := some "3".toList }])).1 =
      .ok { added := 1, skipped := 1,
            duplicates := [{ name := "milk".toList, existingId := 1 }],
            detailsAdded := [{ id := 1, name := "Milk".toList }],
            detailsSkipped := [{ reason := "missing name",
                                 record := { name := some [], stock := some "3".toList } }] } ∧
    (1 + [({ name := "milk".toList, existingId := 1 } : DuplicateEntry)].length + 1 = 3 ∧
      1 = 3 - [({ name := "milk".toList, existingId := 1 } : DuplicateEntry)].length - 1) :=
  ⟨by decide,
    let h := import_accounting latin1Lower 0 emptyStore
      (importHandler latin1Lower 0 emptyStore (some
        [{ name := some "Milk".toList, stock := some "10".toList },
         { name := some "milk".toList, stock := some "5".toList },
         { name := some [], stock := some "3".toList }])).2
      [{ name := some "Milk".toList, stock := some "10".toList },
       { name := some "milk".toList, stock := some "5".toList },
       { name := some [], stock := some "3".toList }]
      { added := 1, skipped := 1,
        duplicates := [{ name := "milk".toList, existingId := 1 }],
        detailsAdded := [{ id := 1, name := "Milk".toList }],
        detailsSkipped := [{ reason := "missing name",
                             record := { name := some [], stock := some "3".toList } }] }
      (by decide)
    ⟨h.1, h.2.1⟩⟩

/-! ## C3: a storage failure during an import -/

/-- The loop only appends to the products table. -/
theorem importLoop_products_append (toLowerCase : Str → Str) (now : Nat) (rows : List RawRow)
    (s s1 : Store) (acc : ImportLists) (r : Except StorageError ImportLists)
    (h : importLoop toLowerCase now s acc rows = (r, s1)) :
    ∃ new, s1.products = s.products ++ new := by
  induction rows generalizing s acc with
  | nil =>
    simp only [importLoop, Prod.mk.injEq] at h
    exact ⟨[], by rw [← h.2]; simp⟩
  | cons row rs ih =>
    simp only [importLoop] at h
    cases hr : importRow toLowerCase now s acc row with
    | error e =>
      simp only [hr, Prod.mk.injEq] at h
      exact ⟨[], by rw [← h.2]; simp⟩
    | ok v =>
      obtain ⟨acc2, s2⟩ := v
      simp only [hr] at h
      obtain ⟨new, hnew⟩ := ih s2 acc2 h
      rcases importRow_ok_cases toLowerCase now s s2 acc acc2 row hr with
        ⟨_, hs, _⟩ | ⟨c, e, _, _, hs, _⟩ | ⟨c, lastID, _, _, hins, _⟩
      · subst hs; exact ⟨new, hnew⟩
      · subst hs; exact ⟨new, hnew⟩
      · obtain ⟨n, _, _, _, _, _, hprod⟩ := insertProduct_ok now s s2 c lastID hins
        exact ⟨_ :: new, by rw [hnew, hprod, List.append_assoc]; rfl⟩

/-- What the loop does, whatever the rows: when the INSERT of one row fails in storage,
the import stops at that row and answers with the error (status 500) instead of the lists
and counts; the store is the one the earlier rows produced, which extends the products
table the import started from. -/
theorem import_stops_at_failed_insert (toLowerCase : Str → Str) (now : Nat) (s s1 : Store)
    (pre post : List RawRow) (record : RawRow) (acc1 : ImportLists) (e : StorageError)
    (hpre : importLoop toLowerCase now s {} pre = (.ok acc1, s1))
    (hfail : importRow toLowerCase now s1 acc1 record = .error e) :
    importHandler toLowerCase now s (some (pre ++ record :: post)) = (.failed e, s1) ∧
      (∃ new, s1.products = s.products ++ new ∧ new.length = acc1.added.length) := by
  constructor
  · simp [importHandler, importLoop_append, hpre, importLoop, hfail]
  · obtain ⟨new, hnew⟩ := importLoop_products_append toLowerCase now pre s s1 {} _ hpre
    obtain ⟨_, h2, _⟩ := importLoop_counts toLowerCase now pre s s1 {} acc1 hpre
    refine ⟨new, hnew, ?_⟩
    rw [hnew] at h2
    simp only [List.length_append, List.length_nil] at h2
    omega

/-- C3 at the failing input: the second of the three rows Milk/10, Soap/abc, Rice/5 has a
stock text that is not a number, its INSERT is rejected (NOT NULL on stock), and the whole
request is answered with the error. The failing row is on no skipped list, for no list is
returned; the later row Rice is never inserted; only Milk is in the table. The seed
endpoint, which runs the same INSERT in a loop, goes on after a rejected row
(`seedHandler`). -/
theorem import_failed_insert_ends_batch :
    importHandler latin1Lower 0 emptyStore
        (some [rowOf "Milk" "10", rowOf "Soap" "abc", rowOf "Rice" "5"]) =
      (.failed (.notNull "products.stock"),
       { products := [{ id := 1, name := "Milk".toList, unit := "pcs".toList,
                        category := "Uncategorized".toList, brand := [], stock := 10,
                        status := "In Stock".toList, image := none,
                        created_at := 0, updated_at := 0 }],
         productSeq := 1 }) := by
  decide

/-! ## C4: the stock of an imported row -/

/-- C4 at the failing input: for the stock text abc the normalised stock is `NaN`, not 0,
(and the status is derived as for a stock that is not positive), and the import of that
row ends with a storage error. -/
theorem import_stock_non_numeric_is_nan :
    normalize (rowOf "Milk" "abc") =
        some { name := "Milk".toList, unit := "pcs".toList, category := "Uncategorized".toList,
               brand := [], stock := none, status := "Out of Stock".toList, image := none } ∧
      importHandler latin1Lower 0 emptyStore (some [rowOf "Milk" "abc"]) =
        (.failed (.notNull "products.stock"), emptyStore) := by
  decide

/-- The part of C4 that holds: an absent or empty stock cell gives stock 0. -/
theorem parseStock_absent_or_empty (field : Option Str) (h : field = none ∨ field = some []) :
    parseStock field = some 0 := by
  rcases h with h | h <;> subst h <;> rfl

/-! ## C5: defaults of an imported row -/

/-- C5 at the failing input: a row whose unit, category and status cells hold one blank
is stored with the empty string in all three columns, not with the defaults. -/
theorem import_blank_cells_stored_empty :
    (importHandler latin1Lower 0 emptyStore (some
        [{ name := some "Milk".toList, unit := some " ".toList, category := some " ".toList,
           stock := some "4".toList, status := some " ".toList, image := some " ".toList }])).2.products =
      [{ id := 1, name := "Milk".toList, unit := [], category := [], brand := [], stock := 4,
         status := [], image := none, created_at := 0, updated_at := 0 }] := by
  decide

/-- The part of C5 that holds: cells that are absent or empty get the defaults, and a blank
image is stored as NULL. -/
theorem normalize_defaults (record : RawRow) (c : Candidate)
    (h : normalize record = some c)
    (hunit : record.unit = none ∨ record.unit = some [])
    (hcat : record.category = none ∨ record.category = some [])
    (hstatus : record.status = none ∨ record.status = some [])
    (himage : ∀ i, record.image = some i → i.all isJsWhitespace = true) :
    c.unit = "pcs".toList ∧ c.category = "Uncategorized".toList ∧
      c.status = (if isPositive c.stock then "In Stock".toList else "Out of Stock".toList) ∧
      c.image = none := by
  have himg : trim (orElse record.image []) = [] := by
    cases hi : record.image with
    | none => rfl
    | some i =>
      cases i with
      | nil => rfl
      | cons x xs => exact trim_of_all_whitespace _ (himage _ hi)
  unfold normalize at h
  simp only at h
  by_cases hname : trim (orElse record.name []) = []
  · simp [hname] at h
  · rw [if_neg hname] at h
    simp only [Option.some.injEq] at h
    subst h
    simp only [himg, orNull]
    refine ⟨?_, ?_, ?_, trivial⟩
    · rcases hunit with h | h <;> rw [h] <;> decide
    · rcases hcat with h | h <;> rw [h] <;> decide
    · rcases hstatus with h | h <;> rw [h] <;> cases isPositive (parseStock record.stock) <;> decide

/-! ## C8: the sign of a stored stock -/

/-- C8 at the failing input: importing one row with the stock text -5 into the empty
store is an application run from the empty store, and it stores the product with
stock -5. -/
theorem import_stores_negative_stock :
    Reachable latin1Lower (importHandler latin1Lower 0 emptyStore (some [rowOf "Milk" "-5"])).2 ∧
      (importHandler latin1Lower 0 emptyStore (some [rowOf "Milk" "-5"])).1 =
        .ok { added := 1, skipped := 0, duplicates := [],
              detailsAdded := [{ id := 1, name := "Milk".toList }], detailsSkipped := [] } ∧
      (importHandler latin1Lower 0 emptyStore (some [rowOf "Milk" "-5"])).2.products.map
        (fun p => p.stock) = [-5] :=
  ⟨Reachable.importCsv 0 emptyStore _ Reachable.init, by decide, by decide⟩

/-! ## The update handler -/

theorem updateProduct_ok_of_unique (now : Nat) (s : Store) (id : Nat)
    (name unit category brand : Str) (stock : Int) (status : Str) (image : Option Str)
    (h : ∀ p ∈ s.products, p.id ≠ id → p.name ≠ name) :
    ∃ s1, updateProduct now s id name unit category brand stock status image = .ok s1 ∧
      s1.logs = s.logs ∧ s1.logSeq = s.logSeq := by
  have hany : s.products.any (fun p => p.id != id && p.name == name) = false := by
    rw [List.any_eq_false]
    intro p hp
    by_cases hid : p.id = id
    · simp [hid]
    · simp [hid, h p hp hid]
  have hu : updateProduct now s id name unit category brand stock status image =
      .ok { s with products := s.products.map (fun p =>
        if p.id = id then
          { p with name := name, unit := unit, category := category, brand := brand,
                   stock := stock, status := status, image := image, updated_at := now }
        else p) } := by
    unfold updateProduct
    rw [hany, Bool.and_false]
    rfl
  exact ⟨_, hu, rfl, rfl⟩

/-- Every answer of the update handler other than the updated record leaves the store as
it was. -/
theorem putHandler_error_store (toLowerCase : Str → Str) (now : Nat) (s : Store) (id : Nat)
    (b : UpdateBody) (h : (putHandler toLowerCase now s id b).1.isError = true) :
    (putHandler toLowerCase now s id b).2 = s := by
  unfold putHandler at h ⊢
  by_cases hv : validBody b = true
  · simp only [hv, Bool.not_true, Bool.false_eq_true, if_false] at h ⊢
    cases hf : findOtherByLowerName toLowerCase s (b.name.getD []) id with
    | some other => rfl
    | none =>
      simp only [hf] at h ⊢
      cases hg : getProduct s id with
      | none => rfl
      | some old =>
        simp only [hg] at h ⊢
        cases hu : updateProduct now s id (b.name.getD []) (b.unit.getD []) (b.category.getD [])
            (b.brand.getD []) (integerOfText (b.stock.getD [])) (b.status.getD [])
            (orNull (b.image.getD [])) with
        | error e => rfl
        | ok s1 =>
          simp only [hu] at h
          simp [PutResponse.isError] at h
  · simp [hv]

/-- What the handler does when it rejects: a body that fails validation, a hit of the
uniqueness lookup or a missing target gives an error answer and the store of before. -/
theorem put_rejected_store_unchanged (toLowerCase : Str → Str) (now : Nat) (s : Store)
    (id : Nat) (b : UpdateBody)
    (h : validBody b = false ∨
      (findOtherByLowerName toLowerCase s (b.name.getD []) id).isSome = true ∨
      getProduct s id = none) :
    (putHandler toLowerCase now s id b).1.isError = true ∧
      (putHandler toLowerCase now s id b).2 = s := by
  have herr : (putHandler toLowerCase now s id b).1.isError = true := by
    unfold putHandler
    by_cases hv : validBody b = true
    · simp only [hv, Bool.not_true, Bool.false_eq_true, if_false]
      cases hf : findOtherByLowerName toLowerCase s (b.name.getD []) id with
      | some other => rfl
      | none =>
        simp only []
        rcases h with h | h | h
        · rw [hv] at h; exact absurd h (by decide)
        · rw [hf] at h; exact absurd h (by decide)
        · rw [h]; rfl
    · simp only [Bool.not_eq_true] at hv
      simp [hv, PutResponse.isError]
  exact ⟨herr, putHandler_error_store toLowerCase now s id b herr⟩

/-- What the handler writes to the log when the UPDATE goes through: with `old` the
target row as the driver returns it and `n = Number(stock)`, nothing when `n` is the old
stock, else one row after the old ones. -/
theorem put_log_when_update_succeeds (toLowerCase : Str → Str) (now : Nat) (s : Store)
    (i : Nat) (b : UpdateBody) (old : Product)
    (hold : getProduct s i = some old)
    (hvalid : validBody b = true)
    (hlookup : findOtherByLowerName toLowerCase s (b.name.getD []) i = none)
    (hunique : ∀ p ∈ s.products, p.id ≠ i → p.name ≠ b.name.getD []) :
    (putHandler toLowerCase now s i b).1.isError = false ∧
      (toNumber (b.stock.getD []) = old.stock →
        (putHandler toLowerCase now s i b).2.logs = s.logs) ∧
      (toNumber (b.stock.getD []) ≠ old.stock →
        (putHandler toLowerCase now s i b).2.logs = s.logs ++
          [{ id := nextLogId s, productId := i, oldStock := old.stock,
             newStock := toNumber (b.stock.getD []),
             changedBy := orElse b.changedBy "admin".toList, timestamp := now }]) := by
  obtain ⟨s1, hu, hlogs, hseq⟩ := updateProduct_ok_of_unique now s i (b.name.getD [])
    (b.unit.getD []) (b.category.getD []) (b.brand.getD []) (integerOfText (b.stock.getD []))
    (b.status.getD []) (orNull (b.image.getD [])) hunique
  have hnext : nextLogId s1 = nextLogId s := by simp [nextLogId, hlogs, hseq]
  unfold putHandler
  simp only [hvalid, Bool.not_true, Bool.false_eq_true, if_false, hlookup, hold, hu]
  refine ⟨rfl, ?_, ?_⟩
  · intro heq
    simp [heq, hlogs]
  · intro hne
    have hne2 : old.stock ≠ toNumber (b.stock.getD []) := fun h => hne h.symm
    simp [hne2, insertLog, hlogs, hnext]

/-! ## C2: the audit entry of an update -/

/-- C2 at two failing inputs. First: the store holds É (id 1) and Milk (id 2, stock 10);
the update of product 2 to the name É with stock 9 passes validation and the uniqueness
lookup (SQLite leaves the stored É as it is, the parameter is é), the UPDATE is then
rejected by the UNIQUE index, the handler answers with status 500, and no log row is
written although the submitted stock differs from the stored one. Second: Milk is stored
with stock 2^53; the update to 2^53 + 1 stores the new stock, but line 132 compares the
two as doubles, finds them equal, and writes no log row. -/
theorem put_changed_stock_without_log :
    (validBody (renameBody "É" "9") = true ∧
      findOtherByLowerName latin1Lower accentStore "É".toList 2 = none ∧
      (getProduct accentStore 2).map (fun p => p.stock) = some 10 ∧
      toNumber "9".toList = 9 ∧
      putHandler latin1Lower 5 accentStore 2 (renameBody "É" "9") =
        (.failed (.unique "products.name"), accentStore) ∧
      accentStore.logs = []) ∧
    (validBody (milkBody "9007199254740993") = true ∧
      findOtherByLowerName latin1Lower bigMilkStore "Milk".toList 1 = none ∧
      bigMilkStore.products.map (fun p => p.stock) = [9007199254740992] ∧
      (putHandler latin1Lower 5 bigMilkStore 1 (milkBody "9007199254740993")).1.isError = false ∧
      (putHandler latin1Lower 5 bigMilkStore 1 (milkBody "9007199254740993")).2.products.map
        (fun p => p.stock) = [9007199254740993] ∧
      (putHandler latin1Lower 5 bigMilkStore 1 (milkBody "9007199254740993")).2.logs = []) := by
  decide

/-- The scenario of C2, which the code meets: with Milk stored at stock 10, an update to
10 leaves the log empty and an update to 7 writes the single row 10 to 7 by admin. -/
theorem stock_audit_scenario_evaluated :
    (putHandler latin1Lower 5 milkStore 1 (milkBody "10")).2.logs = [] ∧
      (putHandler latin1Lower 5 milkStore 1 (milkBody "7")).2.logs =
        [{ id := 1, productId := 1, oldStock := 10, newStock := 7,
           changedBy := "admin".toList, timestamp := 5 }] := by
  decide

/-! ## C6: a rejected update -/

/-- C6 at the failing input: the store holds ÉCLAIR (id 1) and Milk (id 2, stock 10), and
product 2 is updated to the name éclair, which equals the name of product 1 ignoring
case. SQLite's `lower()` leaves the stored É as it is, so the lookup finds nothing: the
handler answers with the updated record, product 2 is renamed, and a log row is
written. -/
theorem put_case_variant_name_accepted :
    latin1Lower "ÉCLAIR".toList = latin1Lower "éclair".toList ∧
      eclairStore.products.map (fun p => (p.id, p.name, p.stock)) =
        [(1, "ÉCLAIR".toList, 1), (2, "Milk".toList, 10)] ∧
      eclairStore.logs = [] ∧
      (putHandler latin1Lower 5 eclairStore 2 (renameBody "éclair" "9")).1.isError = false ∧
      (putHandler latin1Lower 5 eclairStore 2 (renameBody "éclair" "9")).2.products.map
        (fun p => (p.id, p.name, p.stock)) = [(1, "ÉCLAIR".toList, 1), (2, "éclair".toList, 9)] ∧
      (putHandler latin1Lower 5 eclairStore 2 (renameBody "éclair" "9")).2.logs =
        [{ id := 1, productId := 2, oldStock := 10, newStock := 9,
           changedBy := "admin".toList, timestamp := 5 }] := by
  decide

/-! ## C1: two rows with the same name in one import -/

/-- C1 at the failing input: the rows ÉCLAIR/1 and éclair/2 have trimmed names that are
equal ignoring case and the store is empty. The lookup for the second row compares
`lower(name)` of the stored ÉCLAIR, which SQLite leaves as ÉCLAIR, with éclair and finds
nothing: both rows are inserted and the duplicates list is empty. -/
theorem import_case_variant_inserted_twice :
    latin1Lower (trim "ÉCLAIR".toList) = latin1Lower (trim "éclair".toList) ∧
      importHandler latin1Lower 0 emptyStore (some [rowOf "ÉCLAIR" "1", rowOf "éclair" "2"]) =
        (.ok { added := 2, skipped := 0, duplicates := [],
               detailsAdded := [{ id := 1, name := "ÉCLAIR".toList },
                                { id := 2, name := "éclair".toList }],
               detailsSkipped := [] },
         { products := [{ id := 1, name := "ÉCLAIR".toList, unit := "pcs".toList,
                          category := "Uncategorized".toList, brand := [], stock := 1,
                          status := "In Stock".toList, image := none,
                          created_at := 0, updated_at := 0 },
                        { id := 2, name := "éclair".toList, unit := "pcs".toList,
                          category := "Uncategorized".toList, brand := [], stock := 2,
                          status := "In Stock".toList, image := none,
                          created_at := 0, updated_at := 0 }],
           productSeq := 2 }) := by
  decide

/-- The scenario of C1, which the code meets: the rows Milk/10 and milk/5, imported into
the empty store, give the single product Milk with stock 10 under id 1 and the duplicates
list with the one entry milk, existingId 1. -/
theorem import_dedup_scenario_evaluated :
    importHandler latin1Lower 0 emptyStore (some [rowOf "Milk" "10", rowOf "milk" "5"]) =
      (.ok { added := 1, skipped := 0,
             duplicates := [{ name := "milk".toList, existingId := 1 }],
             detailsAdded := [{ id := 1, name := "Milk".toList }], detailsSkipped := [] },
       { products := [{ id := 1, name := "Milk".toList, unit := "pcs".toList,
                        category := "Uncategorized".toList, brand := [], stock := 10,
                        status := "In Stock".toList, image := none,
                        created_at := 0, updated_at := 0 }],
         productSeq := 1 }) := by
  decide

/-! ## Decimal text of a stock -/

theorem digit_toNat (k : Nat) (hk : k < 10) : (Char.ofNat (48 + k)).toNat = 48 + k := by
  interval_cases k <;> rfl

theorem decimalDigitsAux_append (fuel n : Nat) (acc : Str) :
    decimalDigitsAux fuel n acc = decimalDigitsAux fuel n [] ++ acc := by
  induction fuel generalizing n acc with
  | zero => simp [decimalDigitsAux]
  | succ fuel ih =>
    simp only [decimalDigitsAux]
    split
    · simp
    · rw [ih (n / 10) (Char.ofNat (48 + n % 10) :: acc), ih (n / 10) [Char.ofNat (48 + n % 10)]]
      simp

theorem decimalDigitsAux_digits (fuel n : Nat) (acc : Str)
    (hacc : ∀ c ∈ acc, isDecimalDigit c = true) :
    ∀ c ∈ decimalDigitsAux fuel n acc, isDecimalDigit c = true := by
  induction fuel generalizing n acc with
  | zero => simpa [decimalDigitsAux] using hacc
  | succ fuel ih =>
    have hd : isDecimalDigit (Char.ofNat (48 + n % 10)) = true := by
      have := digit_toNat (n % 10) (Nat.mod_lt _ (by decide))
      simp only [isDecimalDigit, this, Bool.and_eq_true, decide_eq_true_eq]
      omega
    have hacc2 : ∀ c ∈ Char.ofNat (48 + n % 10) :: acc, isDecimalDigit c = true := by
      intro c hc
      rcases List.mem_cons.mp hc with h | h
      · rw [h]; exact hd
      · exact hacc c h
    simp only [decimalDigitsAux]
    split
    · exact hacc2
    · exact ih (n / 10) _ hacc2

theorem renderNat_digits (n : Nat) : ∀ c ∈ renderNat n, isDecimalDigit c = true :=
  decimalDigitsAux_digits (n + 1) n [] (by simp)

theorem renderNat_ne_nil (n : Nat) : renderNat n ≠ [] := by
  unfold renderNat
  simp only [decimalDigitsAux]
  split
  · simp
  · rw [decimalDigitsAux_append]
    simp

theorem digitValue_decimal (c : Char) (h : isDecimalDigit c = true) :
    digitValue 10 c = some (c.toNat - 48) := by
  simp only [isDecimalDigit, Bool.and_eq_true, decide_eq_true_eq] at h
  simp [digitValue, h]

theorem leadingDigits_decimal (s : Str) (h : ∀ c ∈ s, isDecimalDigit c = true) :
    leadingDigits 10 s = s.map (fun c => c.toNat - 48) := by
  induction s with
  | nil => rfl
  | cons c cs ih =>
    have hc := digitValue_decimal c (h c (List.mem_cons_self _ _))
    simp only [leadingDigits, hc, List.map_cons]
    rw [ih (fun x hx => h x (List.mem_cons_of_mem _ hx))]

theorem digitsValue_snoc (ds : List Nat) (d : Nat) :
    digitsValue 10 (ds ++ [d]) = digitsValue 10 ds * 10 + d := by
  simp [digitsValue, List.foldl_append]

theorem decimalDigitsAux_value (fuel n : Nat) (h : n < fuel) :
    digitsValue 10 ((decimalDigitsAux fuel n []).map (fun c => c.toNat - 48)) = n := by
  induction fuel generalizing n with
  | zero => omega
  | succ fuel ih =>
    have hd := digit_toNat (n % 10) (Nat.mod_lt _ (by decide))
    simp only [decimalDigitsAux]
    split
    · rename_i h0
      simp only [List.map_cons, List.map_nil, hd, digitsValue, List.foldl_cons, List.foldl_nil]
      omega
    · rename_i h0
      rw [decimalDigitsAux_append, List.map_append, List.map_cons, List.map_nil,
        digitsValue_snoc, ih (n / 10) (by omega), hd]
      omega

theorem renderNat_value (n : Nat) :
    digitsValue 10 ((renderNat n).map (fun c => c.toNat - 48)) = n :=
  decimalDigitsAux_value (n + 1) n (by omega)

theorem isDecimalDigit_not_whitespace (c : Char) (h : isDecimalDigit c = true) :
    isJsWhitespace c = false := by
  simp only [isDecimalDigit, Bool.and_eq_true, decide_eq_true_eq] at h
  simp only [isJsWhitespace, Bool.or_eq_false_iff, Bool.and_eq_false_iff, decide_eq_false_iff_not,
    beq_eq_false_iff_ne, ne_eq]
  omega

theorem isDecimalDigit_ne (c d : Char) (h : isDecimalDigit c = true) (hd : isDecimalDigit d = false) :
    c ≠ d := by
  intro hcd
  rw [hcd, hd] at h
  exact absurd h (by decide)

theorem splitSign_digits (s : Str) (h : ∀ c ∈ s, isDecimalDigit c = true) :
    splitSign s = (false, s) := by
  cases s with
  | nil => rfl
  | cons c cs =>
    have hc := h c (List.mem_cons_self _ _)
    have h1 : c ≠ '-' := isDecimalDigit_ne c '-' hc (by decide)
    have h2 : c ≠ '+' := isDecimalDigit_ne c '+' hc (by decide)
    unfold splitSign
    split
    · rename_i heq; simp only [List.cons.injEq] at heq; exact absurd heq.1 h1
    · rename_i heq; simp only [List.cons.injEq] at heq; exact absurd heq.1 h2
    · rfl

theorem splitRadix_digits (s : Str) (h : ∀ c ∈ s, isDecimalDigit c = true) :
    splitRadix s = (10, s) := by
  unfold splitRadix
  split
  · rename_i r
    have := h 'x' (by simp)
    exact absurd this (by decide)
  · rename_i r
    have := h 'X' (by simp)
    exact absurd this (by decide)
  · rfl

/-- Between -2^53 and 2^53 every integer is a double. -/
theorem toDouble_of_safe (n : Int) (h : inSafeRange n = true) : toDouble n = n := by
  simp only [inSafeRange, decide_eq_true_eq] at h
  cases n with
  | ofNat m =>
    have hm : m ≤ 9007199254740992 := by simpa using h
    simp [toDouble, roundNat, hm]
  | negSucc m =>
    have hm : m + 1 ≤ 9007199254740992 := by simpa using h
    simp only [toDouble, roundNat, hm, if_true]
    rfl

/-- Reading back the decimal text of a natural number. -/
theorem parseInt_renderNat (n : Nat) : parseInt (renderNat n) = some (toDouble (n : Int)) := by
  have hdig := renderNat_digits n
  have hne := renderNat_ne_nil n
  have hdrop : (renderNat n).dropWhile isJsWhitespace = renderNat n := by
    cases hr : renderNat n with
    | nil => rfl
    | cons c cs =>
      have hc : isJsWhitespace c = false :=
        isDecimalDigit_not_whitespace c (hdig c (by rw [hr]; exact List.mem_cons_self _ _))
      simp [List.dropWhile, hc]
  unfold parseInt
  simp only [hdrop, splitSign_digits _ hdig, splitRadix_digits _ hdig, leadingDigits_decimal _ hdig]
  cases hm : (renderNat n).map (fun c => c.toNat - 48) with
  | nil =>
    simp only [List.map_eq_nil_iff] at hm
    exact absurd hm hne
  | cons d ds =>
    have hv := renderNat_value n
    rw [hm] at hv
    simp [hv]

/-- Reading back the decimal text of an integer. -/
theorem parseInt_renderInt (n : Int) : parseInt (renderInt n) = some (toDouble n) := by
  cases n with
  | ofNat n => exact parseInt_renderNat n
  | negSucc k =>
    have hdig := renderNat_digits (k + 1)
    have hne := renderNat_ne_nil (k + 1)
    unfold renderInt parseInt
    have hdrop : ('-' :: renderNat (k + 1)).dropWhile isJsWhitespace = '-' :: renderNat (k + 1) := by
      have : isJsWhitespace '-' = false := by decide
      simp [List.dropWhile, this]
    simp only [hdrop, splitSign, splitRadix_digits _ hdig, leadingDigits_decimal _ hdig]
    cases hm : (renderNat (k + 1)).map (fun c => c.toNat - 48) with
    | nil =>
      simp only [List.map_eq_nil_iff] at hm
      exact absurd hm hne
    | cons d ds =>
      have hv := renderNat_value (k + 1)
      rw [hm] at hv
      simp only [hv, if_true, Option.some.injEq]
      congr 1

theorem renderInt_ne_nil (n : Int) : renderInt n ≠ [] := by
  cases n with
  | ofNat n => exact renderNat_ne_nil n
  | negSucc k => simp [renderInt]

theorem parseStock_renderInt (n : Int) : parseStock (some (renderInt n)) = some (toDouble n) := by
  cases hr : renderInt n with
  | nil => exact absurd hr (renderInt_ne_nil n)
  | cons c cs =>
    unfold parseStock
    simp only
    rw [← hr]
    exact parseInt_renderInt n

/-! ## C7: export followed by import -/

theorem findByLowerName_eq_none (toLowerCase : Str → Str) (s : Store) (name : Str) :
    findByLowerName toLowerCase s name = none ↔
      ∀ p ∈ s.products, sqlLower p.name ≠ toLowerCase name := by
  simp [findByLowerName, nameIndex, List.mem_insertionSort]

theorem orElse_some_nil_default (x : Str) : orElse (some x) [] = x := by
  cases x <;> rfl

theorem orNull_of_ne_nil (x : Str) (h : x ≠ []) : orNull x = some x := by
  cases x with
  | nil => exact absurd rfl h
  | cons c cs => rfl

theorem isEmpty_false_iff (x : Str) : (!x.isEmpty) = true ↔ x ≠ [] := by
  cases x <;> simp

/-- The exported row of a product in normal form with a stock between -2^53 and 2^53 is
normalised to the product's own seven columns. -/
theorem normalize_exportRow (p : Product) (h : inNormalForm p = true)
    (hsafe : inSafeRange p.stock = true) :
    normalize (exportRow p) =
      some { name := p.name, unit := p.unit, category := p.category, brand := p.brand,
             stock := some p.stock, status := p.status, image := p.image } := by
  simp only [inNormalForm, Bool.and_eq_true, beq_iff_eq, isEmpty_false_iff] at h
  obtain ⟨⟨⟨⟨⟨⟨⟨⟨⟨hn, htn⟩, hu⟩, htu⟩, hc⟩, htc⟩, htb⟩, hs⟩, hts⟩, hi⟩ := h
  have himg : orNull (trim (p.image.getD [])) = p.image := by
    cases hp : p.image with
    | none => rfl
    | some i =>
      rw [hp] at hi
      simp only [Bool.and_eq_true, beq_iff_eq, isEmpty_false_iff] at hi
      simp only [Option.getD_some]
      rw [hi.2, orNull_of_ne_nil i hi.1]
  have hstock : parseStock (some (renderInt (toDouble p.stock))) = some p.stock := by
    rw [toDouble_of_safe p.stock hsafe, parseStock_renderInt, toDouble_of_safe p.stock hsafe]
  unfold normalize exportRow
  simp only [orElse_of_ne_nil _ _ hn, htn, if_neg hn, orElse_of_ne_nil _ _ hu, htu,
    orElse_of_ne_nil _ _ hc, htc, orElse_some_nil_default, htb, orElse_of_ne_nil _ _ hs, hts,
    hstock, himg]

theorem namesDistinct_cons (toLowerCase : Str → Str) (p : Product) (ps : List Product)
    (h : namesDistinct toLowerCase (p :: ps) = true) :
    (∀ q ∈ ps, sqlLower p.name ≠ toLowerCase q.name ∧ p.name ≠ q.name) ∧
      namesDistinct toLowerCase ps = true := by
  simp only [namesDistinct, Bool.and_eq_true, List.all_eq_true, bne_iff_ne, ne_eq] at h
  exact ⟨fun q hq => h.1 q hq, h.2⟩

/-- The loop on exported rows: every row is inserted. -/
theorem importLoop_exportRows (toLowerCase : Str → Str) (now : Nat) (ps : List Product)
    (st : Store) (acc : ImportLists)
    (hnf : ∀ p ∈ ps, inNormalForm p = true) (hsafe : ∀ p ∈ ps, inSafeRange p.stock = true)
    (hd : namesDistinct toLowerCase ps = true)
    (hfresh : ∀ q ∈ st.products, ∀ p ∈ ps,
      sqlLower q.name ≠ toLowerCase p.name ∧ q.name ≠ p.name) :
    ∃ acc1 st1, importLoop toLowerCase now st acc (ps.map exportRow) = (.ok acc1, st1) ∧
      st1.products.map sevenFields = st.products.map sevenFields ++ ps.map sevenFields ∧
      acc1.duplicates = acc.duplicates ∧ acc1.skipped = acc.skipped ∧
      acc1.added.length = acc.added.length + ps.length ∧ st1.logs = st.logs := by
  induction ps generalizing st acc with
  | nil => exact ⟨acc, st, rfl, by simp, rfl, rfl, rfl, rfl⟩
  | cons p ps ih =>
    obtain ⟨hp, hd2⟩ := namesDistinct_cons toLowerCase p ps hd
    have hnorm := normalize_exportRow p (hnf p (List.mem_cons_self _ _))
      (hsafe p (List.mem_cons_self _ _))
    have hfind : findByLowerName toLowerCase st p.name = none := by
      rw [findByLowerName_eq_none]
      intro q hq
      exact (hfresh q hq p (List.mem_cons_self _ _)).1
    have hany : st.products.any (fun q => q.name == p.name) = false := by
      rw [List.any_eq_false]
      intro q hq
      simpa using (hfresh q hq p (List.mem_cons_self _ _)).2
    have hrow : importRow toLowerCase now st acc (exportRow p) =
        .ok ({ acc with added := acc.added ++ [{ id := nextProductId st, name := p.name }] },
             { st with
               products := st.products ++ [{
                 id := nextProductId st, name := p.name, unit := p.unit, category := p.category,
                 brand := p.brand, stock := p.stock, status := p.status, image := p.image,
                 created_at := now, updated_at := now }]
               productSeq := nextProductId st }) := by
      simp [importRow, hnorm, hfind, insertProduct, hany]
    have hfresh2 : ∀ q ∈ st.products ++ [{
          id := nextProductId st, name := p.name, unit := p.unit, category := p.category,
          brand := p.brand, stock := p.stock, status := p.status, image := p.image,
          created_at := now, updated_at := now }],
        ∀ r ∈ ps, sqlLower q.name ≠ toLowerCase r.name ∧ q.name ≠ r.name := by
      intro q hq r hr
      rcases List.mem_append.mp hq with hq | hq
      · exact hfresh q hq r (List.mem_cons_of_mem _ hr)
      · simp only [List.mem_singleton] at hq
        rw [hq]
        exact hp r hr
    obtain ⟨acc1, st1, hrun, hprod, hdup, hskip, hadd, hlogs⟩ :=
      ih { st with
           products := st.products ++ [{
             id := nextProductId st, name := p.name, unit := p.unit, category := p.category,
             brand := p.brand, stock := p.stock, status := p.status, image := p.image,
             created_at := now, updated_at := now }]
           productSeq := nextProductId st }
        { acc with added := acc.added ++ [{ id := nextProductId st, name := p.name }] }
        (fun r hr => hnf r (List.mem_cons_of_mem _ hr))
        (fun r hr => hsafe r (List.mem_cons_of_mem _ hr)) hd2 hfresh2
    refine ⟨acc1, st1, ?_, ?_, hdup, hskip, ?_, hlogs⟩
    · simp only [List.map_cons, importLoop, hrow]
      exact hrun
    · rw [hprod]
      simp [sevenFields]
    · rw [hadd]
      simp only [List.length_append, List.length_cons, List.length_nil]
      omega

/-- C7, as the code behaves. Whatever `toLowerCase` does: when every product of the store
is in the form the import writes (name, unit, category and status non-empty, no text
column with white space at either end, image NULL or non-empty), has a stock between
-2^53 and 2^53, and no product has the name of an earlier one or is matched with it by
the duplicate lookup of the import, then exporting the products as rows and importing
the rows into the empty store ends without error, reports nothing skipped and no
duplicate, adds one product for each exported one, and stores products that agree with
the original ones, in their order, on the seven exported columns. -/
theorem export_import_round_trip (toLowerCase : Str → Str) (now : Nat) (s : Store)
    (hnf : ∀ p ∈ s.products, inNormalForm p = true)
    (hsafe : ∀ p ∈ s.products, inSafeRange p.stock = true)
    (hd : namesDistinct toLowerCase s.products = true) :
    ∃ report s1, roundTrip toLowerCase now s = (.ok report, s1) ∧
      s1.products.map sevenFields = s.products.map sevenFields ∧
      report.duplicates = [] ∧ report.skipped = 0 ∧ report.detailsSkipped = [] ∧
      report.added = s.products.length ∧ s1.logs = [] := by
  obtain ⟨acc1, st1, hrun, hprod, hdup, hskip, hadd, hlogs⟩ :=
    importLoop_exportRows toLowerCase now s.products emptyStore {} hnf hsafe hd
      (by intro q hq; cases hq)
  refine ⟨reportOf acc1, st1, ?_, ?_, ?_, ?_, ?_, ?_, ?_⟩
  · simp only [roundTrip, importHandler, exportRows, hrun]
  · simpa [emptyStore] using hprod
  · simpa [reportOf] using hdup
  · simp [reportOf, hskip]
  · simpa [reportOf] using hskip
  · simpa [reportOf] using hadd
  · simpa [emptyStore] using hlogs

/-- Witness for C7 as the code behaves: the store that holds Milk and Soap. -/
theorem export_import_round_trip_witness :
    milkSoapStore.products.map (fun p => (p.name, p.stock)) =
        [("Milk".toList, 10), ("Soap".toList, -3)] ∧
      ∃ report s1, roundTrip latin1Lower 9 milkSoapStore = (.ok report, s1) ∧
        s1.products.map sevenFields = milkSoapStore.products.map sevenFields ∧
        report.duplicates = [] ∧ report.skipped = 0 ∧ report.detailsSkipped = [] ∧
        report.added = milkSoapStore.products.length ∧ s1.logs = [] :=
  ⟨by decide,
    export_import_round_trip latin1Lower 9 milkSoapStore (by decide) (by decide) (by decide)⟩

/-- C7 fails as stated, on four reachable stores. After seed, a rename of Banana to
banana and a second seed, the table holds banana and Banana; the round trip reports
Banana as a duplicate and stores three products instead of four. After seed and an
update that writes the name of product 2 with a blank in front, the round trip stores the
name without the blank, and an empty image text comes back as NULL. After seed and an
update that sets the stock of product 2 to 2^53 + 1, the export reads the stock as the
double 2^53, and that is what the round trip stores. After the import of a row with
blank unit, category and status cells, which are stored empty, the round trip stores the
defaults in their place. -/
theorem export_import_round_trip_counterexample :
    (Reachable latin1Lower reseededStore ∧
      reseededStore.products.map (fun p => p.name) =
        ["Apple iPhone 14".toList, "banana".toList, "Shampoo".toList, "Banana".toList] ∧
      (roundTrip latin1Lower 3 reseededStore).1 =
        .ok { added := 3, skipped := 0,
              duplicates := [{ name := "Banana".toList, existingId := 2 }],
              detailsAdded := [{ id := 1, name := "Apple iPhone 14".toList },
                               { id := 2, name := "banana".toList },
                               { id := 3, name := "Shampoo".toList }],
              detailsSkipped := [] } ∧
      (roundTrip latin1Lower 3 reseededStore).2.products.map (fun p => p.name) =
        ["Apple iPhone 14".toList, "banana".toList, "Shampoo".toList]) ∧
    (Reachable latin1Lower paddedStore ∧
      paddedStore.products.map (fun p => (p.name, p.image)) =
        [("Apple iPhone 14".toList, some "https://example.com/iphone.jpg".toList),
         (" Banana".toList, none), ("Shampoo".toList, some [])] ∧
      (roundTrip latin1Lower 3 paddedStore).2.products.map (fun p => (p.name, p.image)) =
        [("Apple iPhone 14".toList, some "https://example.com/iphone.jpg".toList),
         ("Banana".toList, none), ("Shampoo".toList, none)]) ∧
    (Reachable latin1Lower bigStockStore ∧
      bigStockStore.products.map (fun p => (p.name, p.stock)) =
        [("Apple iPhone 14".toList, 10), ("Banana".toList, 9007199254740993),
         ("Shampoo".toList, 25)] ∧
      (roundTrip latin1Lower 3 bigStockStore).2.products.map (fun p => (p.name, p.stock)) =
        [("Apple iPhone 14".toList, 10), ("Banana".toList, 9007199254740992),
         ("Shampoo".toList, 25)]) ∧
    (Reachable latin1Lower blankCellStore ∧
      blankCellStore.products.map (fun p => (p.name, p.unit, p.category, p.status)) =
        [("Milk".toList, [], [], [])] ∧
      (roundTrip latin1Lower 3 blankCellStore).2.products.map
          (fun p => (p.name, p.unit, p.category, p.status)) =
        [("Milk".toList, "pcs".toList, "Uncategorized".toList, "In Stock".toList)]) := by
  refine ⟨⟨?_, by decide, by decide, by decide⟩, ⟨?_, by decide, by decide⟩,
    ⟨?_, by decide, by decide⟩, ⟨?_, by decide, by decide⟩⟩
  · exact Reachable.seed 2 _ (Reachable.put 1 _ 2 _ (Reachable.seed 0 _ Reachable.init))
  · exact Reachable.put 1 _ 2 _ (Reachable.seed 0 _ Reachable.init)
  · exact Reachable.put 1 _ 2 _ (Reachable.seed 0 _ Reachable.init)
  · exact Reachable.importCsv 0 _ _ Reachable.init

/-! ## C11: delete and the audit history -/

/-- The history of a product holds exactly the log rows that name it. -/
theorem mem_historyHandler (s : Store) (id : Nat) (l : InventoryLog) :
    l ∈ historyHandler s id ↔ l ∈ s.logs ∧ l.productId = id := by
  simp [historyHandler, List.mem_insertionSort]

/-- C11. For every store and every product id, the delete handler leaves the inventory
log exactly as it was (the foreign key of `inventory_logs` is declared, but `db.js` never
switches its enforcement on, so no log row is touched or blocks the delete). Hence the
history query answers after the delete what it answered before, for every product, and
every log row that named the deleted product is still returned, unmodified. Of the
products table only rows with that id are removed: every product with another id stays,
and what is left is the old table without those rows, in the old order. -/
theorem delete_retains_history (s : Store) (id : Nat) :
    (deleteHandler s id).logs = s.logs ∧
      (deleteHandler s id).logSeq = s.logSeq ∧
      (∀ pid, historyHandler (deleteHandler s id) pid = historyHandler s pid) ∧
      (∀ l ∈ s.logs, l.productId = id → l ∈ historyHandler (deleteHandler s id) id) ∧
      (∀ p ∈ s.products, p.id ≠ id → p ∈ (deleteHandler s id).products) ∧
      (∀ p ∈ s.products, p ∉ (deleteHandler s id).products → p.id = id) ∧
      List.Sublist (deleteHandler s id).products s.products := by
  refine ⟨rfl, rfl, fun _ => rfl, ?_, ?_, ?_, ?_⟩
  · intro l hl hid
    exact (mem_historyHandler (deleteHandler s id) id l).mpr ⟨hl, hid⟩
  · intro p hp hne
    simp [deleteHandler, hp, hne]
  · intro p hp hnot
    by_contra hne
    exact hnot (by simp [deleteHandler, hp, hne])
  · exact List.filter_sublist _

/-- C11 on an example: Milk has two log rows; after the delete of Milk the products table
is empty and the history of product 1 still returns both rows, the newer one first. -/
theorem delete_retains_history_witness :
    (deleteHandler auditedStore 1).products = [] ∧
      historyHandler auditedStore 1 =
        [{ id := 2, productId := 1, oldStock := 7, newStock := 9,
           changedBy := "admin".toList, timestamp := 6 },
         { id := 1, productId := 1, oldStock := 10, newStock := 7,
           changedBy := "admin".toList, timestamp := 5 }] ∧
      historyHandler (deleteHandler auditedStore 1) 1 = historyHandler auditedStore 1 :=
  ⟨by decide, by decide, (delete_retains_history auditedStore 1).2.2.1 1⟩

end Inventory
